import Mathlib

/-!
Verification of the lotfinderpro PLUTO ETL pipeline against its
natural-language specification.  The Python sources under `pluto-loader/`
are shallowly embedded: records are partial maps from field names to string
values, machine arithmetic is `Int`/`Nat`/`ℚ`, fallible operations return
`Option`, and external effects (database commits, the HTTP source, the
pandas random draw) are made explicit as parameters.
-/

set_option maxHeartbeats 1000000

namespace LotFinderPro

/-! ### Python scalar parsing

Models of `int(s)` and `float(s)` on strings, as invoked by
`transform_record` / `get_built_status` in `old_scripts/pluto_loader.py`. -/

/-- Whitespace stripped by Python string conversion. -/
def isPyWS (c : Char) : Bool :=
  c == ' ' || c == '\t' || c == '\n' || c == '\r' || c == '\x0b' || c == '\x0c'

/-- Strip leading and trailing whitespace from a character list. -/
def stripWS (cs : List Char) : List Char :=
  ((cs.dropWhile isPyWS).reverse.dropWhile isPyWS).reverse

/-- Value of a decimal digit character, `none` for non-digits. -/
def digitVal (c : Char) : Option Nat :=
  if '0' ≤ c ∧ c ≤ '9' then some (c.toNat - 48) else none

/-- Digit scanner for Python `int`: decimal digits with single interior
underscore separators; any other character is a parse failure. -/
def scanDigits : List Char → Nat → Bool → Option Nat
  | [], acc, lastDigit => if lastDigit then some acc else none
  | c :: cs, acc, lastDigit =>
    match digitVal c with
    | some d => scanDigits cs (acc * 10 + d) true
    | none => if c == '_' && lastDigit then scanDigits cs acc false else none

/-- Model of Python `int(s)`: strip whitespace, optional sign, decimal
digits; any other shape raises `ValueError`, modelled as `none`. -/
def pyInt (s : String) : Option Int :=
  match stripWS s.data with
  | '+' :: rest => (scanDigits rest 0 false).map (fun n => (n : Int))
  | '-' :: rest => (scanDigits rest 0 false).map (fun n => -(n : Int))
  | rest => (scanDigits rest 0 false).map (fun n => (n : Int))

/-- Numeric value of a digit list (leading zeros allowed). -/
def digitsToNat (cs : List Char) : Nat :=
  cs.foldl (fun a c => a * 10 + (c.toNat - 48)) 0

/-- True when every character is a decimal digit. -/
def allDigits (cs : List Char) : Bool := cs.all (fun c => (digitVal c).isSome)

/-- Optional exponent suffix of a Python float literal. -/
def parseExp (m : ℚ) : List Char → Option ℚ
  | [] => some m
  | c :: rest =>
    if c == 'e' || c == 'E' then
      match rest with
      | '+' :: ds =>
        if ds ≠ [] ∧ allDigits ds then some (m * (10 : ℚ) ^ digitsToNat ds) else none
      | '-' :: ds =>
        if ds ≠ [] ∧ allDigits ds then some (m / (10 : ℚ) ^ digitsToNat ds) else none
      | ds =>
        if ds ≠ [] ∧ allDigits ds then some (m * (10 : ℚ) ^ digitsToNat ds) else none
    else none

/-- Unsigned decimal float literal: `digits`, `digits.digits`, `.digits` or
`digits.`, with optional exponent. -/
def parseUFloat (cs : List Char) : Option ℚ :=
  let isDig : Char → Bool := fun c => (digitVal c).isSome
  let ip := cs.takeWhile isDig
  let rest := cs.dropWhile isDig
  match rest with
  | '.' :: rest2 =>
    let fp := rest2.takeWhile isDig
    let rest3 := rest2.dropWhile isDig
    if ip = [] ∧ fp = [] then none
    else parseExp ((digitsToNat ip : ℚ) + (digitsToNat fp : ℚ) / (10 : ℚ) ^ fp.length) rest3
  | _ => if ip = [] then none else parseExp (digitsToNat ip) rest

/-- Model of Python `float(s)` restricted to finite decimal literals (the
shape the loaders' numeric fields take); non-finite or exotic spellings are
treated as unparsable, which the callers turn into their default. -/
def pyFloat (s : String) : Option ℚ :=
  match stripWS s.data with
  | '+' :: rest => parseUFloat rest
  | '-' :: rest => (parseUFloat rest).map Neg.neg
  | rest => parseUFloat rest

/-! ### Raw records and field access -/

/-- One raw source record: a partial map from source field name to its
string value as delivered by the paginated API; `none` is an absent field. -/
def RawRecord := String → Option String

/-- Model of `record.get(k, '')`. -/
def getStr (r : RawRecord) (k : String) : String := (r k).getD ""

/-- Model of `record.get(k, d) or d`: an absent field or a Python-falsy
(empty) string falls back to the default `d`. -/
def truthyOr (v : Option String) (d : String) : String :=
  match v with
  | none => d
  | some s => if s = "" then d else s

/-- Character-list prefix test with full definitional control. -/
def isPrefixCh : List Char → List Char → Bool
  | [], _ => true
  | _ :: _, [] => false
  | a :: as, b :: bs => a == b && isPrefixCh as bs

/-- Model of `s.startswith(p)`. -/
def pyStartsWith (s p : String) : Bool := isPrefixCh p.data s.data

/-- Model of `BOROUGH_CODES.get(b, b)`. -/
def boroughName (b : String) : String :=
  if b = "1" then "Manhattan"
  else if b = "2" then "Bronx"
  else if b = "3" then "Brooklyn"
  else if b = "4" then "Queens"
  else if b = "5" then "Staten Island"
  else b

/-- Model of `safe_float` in `transform_record`: falsy or unparsable input
becomes the default `0.0`; no exception escapes. -/
def safeFloat (v : Option String) : ℚ :=
  match v with
  | none => 0
  | some s => if s = "" then 0 else (pyFloat s).getD 0

/-- Model of `safe_int` in `transform_record`. -/
def safeInt (v : Option String) : Int :=
  match v with
  | none => 0
  | some s => if s = "" then 0 else (pyInt s).getD 0

/-! ### get_built_status and transform_record (old_scripts/pluto_loader.py) -/

/-- Building-class string read by `get_built_status`:
`record.get('bldgclass', '')`. -/
def bldgclassOf (r : RawRecord) : String := getStr r "bldgclass"

/-- Year-built parse attempted by `get_built_status`:
`int(record.get('yearbuilt', '0') or '0')`; an absent or empty field is
treated as `0`, an unparsable one raises (`none`). -/
def yearbuiltParsed (r : RawRecord) : Option Int := pyInt (truthyOr (r "yearbuilt") "0")

/-- Building-area parse attempted by `get_built_status`. -/
def bldgareaParsed (r : RawRecord) : Option Int := pyInt (truthyOr (r "bldgarea") "0")

/-- Model of `get_built_status` (old_scripts/pluto_loader.py lines 130-138):
`none` models the `ValueError` raised by `int(...)` on an unparsable field,
which `transform_record` catches by rejecting the record. -/
def getBuiltStatus (r : RawRecord) : Option String :=
  if pyStartsWith (bldgclassOf r) "V" then some "vacant"
  else
    match yearbuiltParsed r with
    | none => none
    | some y =>
      if y = 0 then some "vacant"
      else
        match bldgareaParsed r with
        | none => none
        | some a => if a = 0 then some "vacant" else some "built"

/-- Target-schema record produced by `transform_record`. -/
structure NRec where
  bbl : Int
  borough : String
  block : Int
  lot : Int
  address : String
  zipcode : String
  zonedist1 : String
  bldgclass : String
  landuse : String
  ownertype : String
  lotarea : ℚ
  bldgarea : ℚ
  comarea : ℚ
  resarea : ℚ
  officearea : ℚ
  retailarea : ℚ
  garagearea : ℚ
  strgearea : ℚ
  factryarea : ℚ
  numfloors : ℚ
  unitstotal : Int
  unitsres : Int
  yearbuilt : Int
  yearalter1 : Int
  yearalter2 : Int
  builtfar : ℚ
  residfar : ℚ
  commfar : ℚ
  facilfar : ℚ
  assessland : ℚ
  assesstot : ℚ
  exemptland : ℚ
  exempttot : ℚ
  landmark : String
  built_status : String
  geom : Option String
  centroid : Option String
deriving DecidableEq, Inhabited

/-- Model of `transform_record` (old_scripts/pluto_loader.py lines 140-250).
The surrounding `try` turns any `ValueError` raised by `int(...)` on
bbl/block/lot, or inside `get_built_status`, into a rejected record
(`None`), modelled as `none`.  Note the key itself is read as
`int(record.get('bbl', '0') or '0')`: an absent or empty bbl parses as `0`
rather than raising. -/
def transformRecord (r : RawRecord) : Option NRec :=
  match pyInt (truthyOr (r "bbl") "0"), pyInt (truthyOr (r "block") "0"),
        pyInt (truthyOr (r "lot") "0"), getBuiltStatus r with
  | some bbl, some block, some lot, some bs =>
    some {
      bbl := bbl
      borough := boroughName (getStr r "borough")
      block := block
      lot := lot
      address := getStr r "address"
      zipcode := getStr r "zipcode"
      zonedist1 := getStr r "zonedist1"
      bldgclass := getStr r "bldgclass"
      landuse := getStr r "landuse"
      ownertype := getStr r "ownertype"
      lotarea := safeFloat (r "lotarea")
      bldgarea := safeFloat (r "bldgarea")
      comarea := safeFloat (r "comarea")
      resarea := safeFloat (r "resarea")
      officearea := safeFloat (r "officearea")
      retailarea := safeFloat (r "retailarea")
      garagearea := safeFloat (r "garagearea")
      strgearea := safeFloat (r "strgearea")
      factryarea := safeFloat (r "factryarea")
      numfloors := safeFloat (r "numfloors")
      unitstotal := safeInt (r "unitstotal")
      unitsres := safeInt (r "unitsres")
      yearbuilt := safeInt (r "yearbuilt")
      yearalter1 := safeInt (r "yearalter1")
      yearalter2 := safeInt (r "yearalter2")
      builtfar := safeFloat (r "builtfar")
      residfar := safeFloat (r "residfar")
      commfar := safeFloat (r "commfar")
      facilfar := safeFloat (r "facilfar")
      assessland := safeFloat (r "assessland")
      assesstot := safeFloat (r "assesstot")
      exemptland := safeFloat (r "exemptland")
      exempttot := safeFloat (r "exempttot")
      landmark := getStr r "landmark"
      built_status := bs
      geom :=
        match r "the_geom" with
        | some g => if g = "" then none else some ("SRID=4326;" ++ g.replace "MULTIPOLYGON" "POLYGON")
        | none => none
      centroid :=
        match r "the_geom_centroid" with
        | some g => if g = "" then none else some ("SRID=4326;" ++ g)
        | none => none }
  | _, _, _, _ => none

/-- Raw record with every field absent. -/
def emptyRaw : RawRecord := fun _ => none

/-- Raw record whose bbl is present but not parsable as an integer. -/
def badKeyRaw : RawRecord := fun k => if k = "bbl" then some "not-a-number" else none

/-- Raw record of an ordinary built property. -/
def builtRaw : RawRecord := fun k =>
  if k = "bbl" then some "1000010001"
  else if k = "bldgclass" then some "R4"
  else if k = "yearbuilt" then some "1925"
  else if k = "bldgarea" then some "5000"
  else none

/-! ### The destination table and the batch upsert (insert_properties) -/

/-- Destination `properties` table as seen through its unique `bbl`
constraint: at most one row per key, as the `ON CONFLICT (bbl)` contract
requires. -/
def PropTable := Int → Option NRec

/-- Effect of one row of the upsert statement: on key conflict every
non-key column is overwritten with the incoming value
(`col = EXCLUDED.col` for every column — a full replace, not a merge). -/
def upsertOne (t : PropTable) (r : NRec) : PropTable :=
  fun k => if k = r.bbl then some r else t k

/-- Effect of the single `INSERT ... ON CONFLICT (bbl) DO UPDATE` statement
built by `insert_properties` over a whole batch: rows apply in batch order,
last write wins. -/
def insertBatch (t : PropTable) (batch : List NRec) : PropTable :=
  batch.foldl upsertOne t

/-- Model of `insert_properties(conn, properties)`: an empty batch returns
0 immediately; otherwise the batch commits as one transaction.  `commitOk`
is the external database's verdict: on any failure the transaction is
rolled back in full (`conn.rollback()`, table unchanged) and 0 is
returned. -/
def insertProperties (t : PropTable) (batch : List NRec) (commitOk : Bool) :
    PropTable × Nat :=
  if batch.isEmpty then (t, 0)
  else if commitOk then (insertBatch t batch, batch.length) else (t, 0)

/-- The batch loop of `process_borough` restricted to its interaction with
`insert_properties`: every source batch is inserted in turn and the loop
continues to the next batch whatever the previous outcome. -/
def runBatches : PropTable → Nat → List (List NRec × Bool) → PropTable × Nat
  | t, acc, [] => (t, acc)
  | t, acc, (b, ok) :: rest =>
    let p := insertProperties t b ok
    runBatches p.1 (acc + p.2) rest

/-- Latest row of a batch carrying the given key. -/
def lastWithKey (batch : List NRec) (k : Int) : Option NRec :=
  batch.reverse.find? (fun r => r.bbl == k)

/-! ### The paginated API source and the run loop (pluto_loader.py) -/

/-- Outcome of one HTTP page request: a decoded JSON page, or a request
exception (network error, or a non-2xx status raised by
`raise_for_status`). -/
inductive FetchResult where
  | ok (records : List RawRecord)
  | err

/-- Model of `fetch_pluto_data`: the `except` clause catches every request
exception, prints it, and returns `[]` — indistinguishable to the caller
from an empty (exhausted) page. -/
def fetchPlutoData : FetchResult → List RawRecord
  | .ok rs => rs
  | .err => []

/-- BATCH_SIZE from the configuration header. -/
def BATCH_SIZE : Nat := 500

/-- Per-run statistics accumulated by `process_borough`. -/
structure RunStats where
  totalProcessed : Nat
  batchCount : Nat
deriving DecidableEq

/-- Model of the `while True` fetch loop of `process_borough`; `responses`
lists the remote's replies to the successive page requests (offset 0, 500,
...).  The loop breaks on an empty page (`if not data`) or a short page
(`len(data) < BATCH_SIZE`); inserts are taken as succeeding here, so the
statistics count every transformed record. -/
def processBorough : List FetchResult → RunStats → RunStats
  | [], st => st
  | resp :: rest, st =>
    let data := fetchPlutoData resp
    if data.isEmpty then st
    else
      let transformed := data.filterMap transformRecord
      let st' : RunStats := ⟨st.totalProcessed + transformed.length, st.batchCount + 1⟩
      if data.length < BATCH_SIZE then st' else processBorough rest st'

/-- Outcome of one whole run of `incremental_load`. -/
structure RunOutcome where
  stats : RunStats
  watermarkAdvanced : Bool
  failed : Bool
deriving DecidableEq

/-- Model of `incremental_load(conn, specific_borough)`: process the
borough, then call `update_last_update_date` unconditionally; there is no
failure path, since every fetch or insert error was swallowed below. -/
def incrementalLoad (responses : List FetchResult) : RunOutcome :=
  let st := processBorough responses ⟨0, 0⟩
  ⟨st, true, false⟩

/-! ### is_vacant and the row-level built status
(pluto_supabase_loader_added_features.py, pluto_sample_loader.py,
old_scripts/pluto_local_loader.py) -/

/-- Model of `str.upper()`. -/
def pyToUpper (s : String) : String := String.mk (s.data.map Char.toUpper)

/-- Model of the vacant-lot indicator computed by `prepare_dataframe`:
`pd.notnull(x) and str(x).upper().startswith('V')`, OR-ed with
`df['landuse'] == '11'` (an absent or null landuse compares unequal). -/
def isVacantFlag (bldgclass landuse : Option String) : Bool :=
  (match bldgclass with
   | some s => pyStartsWith (pyToUpper s) "V"
   | none => false) ||
  (landuse == some "11")

/-- Model of `get_built_status` in `old_scripts/pluto_local_loader.py`,
operating on a coerced row: `str(row.get('bldgclass', ''))` (an absent or
null class stringifies to something that does not start with `V`), with
numeric `yearbuilt` / `bldgarea` already defaulted to 0 by
`pd.to_numeric(...).fillna(0)`. -/
def getBuiltStatusRow (bldgclass : Option String) (yearbuilt bldgarea : ℚ) : String :=
  let bc := match bldgclass with | some s => s | none => ""
  if pyStartsWith bc "V" then "vacant"
  else if yearbuilt = 0 then "vacant"
  else if bldgarea = 0 then "vacant"
  else "built"

/-! ### sanitize_record and upsert_chunks (pluto_supabase_loader.py) -/

/-- Classification of a Python float as the sanitizer sees it through
`math.isnan` / `math.isinf`. -/
inductive PyFloat where
  | finite (q : ℚ)
  | nan
  | inf
  | ninf
deriving DecidableEq

/-- True for NaN and the two infinities. -/
def PyFloat.nonFinite : PyFloat → Bool
  | .finite _ => false
  | _ => true

/-- Untyped Python value held by a record cell: scalar, list, or nested
dict. -/
inductive PyVal where
  | none
  | int (i : Int)
  | str (s : String)
  | float (f : PyFloat)
  | list (items : List PyVal)
  | dict (entries : List (String × PyVal))

mutual

/-- Model of the per-value branch of `sanitize_record`. -/
def sanitizeEntry : PyVal → PyVal
  | .float f => if f.nonFinite then .none else .float f
  | .dict d => .dict (sanitizeRecord d)
  | .list l => .list (sanitizeItems l)
  | v => v

/-- Model of `sanitize_record(record)`: each non-finite float value is
replaced by `None`, recursing into nested dicts and into the dict items of
lists; every other value is left unchanged. -/
def sanitizeRecord : List (String × PyVal) → List (String × PyVal)
  | [] => []
  | (k, v) :: rest => (k, sanitizeEntry v) :: sanitizeRecord rest

/-- Model of the list comprehension inside `sanitize_record`: only dict
items are sanitized; all other items (floats included) pass through. -/
def sanitizeItems : List PyVal → List PyVal
  | [] => []
  | .dict d :: rest => .dict (sanitizeRecord d) :: sanitizeItems rest
  | v :: rest => v :: sanitizeItems rest

end

mutual

/-- Scope of claim C9 for one value: not a non-finite float, and clean
inside nested dicts; floats sitting directly inside lists are outside the
scope (the sanitizer leaves them alone). -/
def entryClean : PyVal → Bool
  | .float f => !f.nonFinite
  | .dict d => recordClean d
  | .list l => itemsClean l
  | _ => true

/-- Every value of the record is clean. -/
def recordClean : List (String × PyVal) → Bool
  | [] => true
  | (_, v) :: rest => entryClean v && recordClean rest

/-- Every dict item of a list is clean. -/
def itemsClean : List PyVal → Bool
  | [] => true
  | .dict d :: rest => recordClean d && itemsClean rest
  | _ :: rest => itemsClean rest

end

/-- One cell after `chunk.replace([np.inf, -np.inf], None)` followed by
`chunk.where(pd.notnull(chunk), None)`: a non-finite float cell becomes
`None`, every other cell is untouched. -/
def cellClean : PyVal → PyVal
  | .float f => if f.nonFinite then .none else .float f
  | v => v

/-- Model of `upsert_chunks(df, table_name, chunk_size, supabase)`: the
batches of sanitized records handed to `supabase.table(...).upsert`, one
batch per `df.iloc[start:end]` chunk. -/
def upsertChunksData (df : List (List (String × PyVal))) (chunkSize : Nat) :
    List (List (List (String × PyVal))) :=
  let totalRows := df.length
  let numChunks := totalRows / chunkSize + (if totalRows % chunkSize ≠ 0 then 1 else 0)
  (List.range numChunks).map fun i =>
    ((df.drop (i * chunkSize)).take chunkSize).map fun r =>
      sanitizeRecord (r.map fun kv => (kv.1, cellClean kv.2))

/-- Dataframe with a NaN cell, an infinite cell in a nested dict, and
ordinary values. -/
def dirtyDf : List (List (String × PyVal)) :=
  [[("assesstot", .float .nan), ("bbl", .int 1000010001),
    ("meta", .dict [("ratio", .float .inf), ("name", .str "x")])]]

/-! ### split_pluto_csv.py -/

/-- Rows-per-file count: `split_size = total_rows // num_splits`. -/
def splitSize (df : List α) (numSplits : Nat) : Nat := df.length / numSplits

/-- Model of the splitting loop of `prepare_and_split_csv`: file `i` is
`df.iloc[start : start + split_size]`, except the last file, which is
`df.iloc[start:]` and so receives any remainder rows. -/
def splitParts (df : List α) (numSplits : Nat) : List (List α) :=
  (List.range numSplits).map fun i =>
    let start := i * splitSize df numSplits
    if i = numSplits - 1 then df.drop start
    else (df.drop start).take (splitSize df numSplits)

/-! ### create_strategic_sample (pluto_sample_loader.py)

The sampler runs on the raw dataframe (after column standardisation and
rename, before numeric coercion).  `int(target_size * fraction)` is modelled
by exact rational arithmetic (`num * t / den` with floor division); pandas
`DataFrame.sample(n, random_state)` is a seeded draw without replacement;
null cells (`NaN`) are `none` and compare false, as in pandas. -/

/-- Row of the dataframe handed to `create_strategic_sample`: the fields
the sampler reads, plus `address` so two distinct source rows can share a
bbl (the earlier `drop_duplicates()` removes only fully identical rows). -/
structure SRec where
  bbl : Int
  borough : String
  address : String
  bldgclass : Option String
  assesstot : Option ℚ
  residfar : Option ℚ
  builtfar : Option ℚ
deriving DecidableEq

/-- Linear congruential step standing in for numpy's seeded generator:
what the claims need is that the draw is a deterministic function of the
seed. -/
def lcg (s : Nat) : Nat := (1103515245 * s + 12345) % 2147483648

/-- Draw of `n` rows without replacement, indices taken from the
generator. -/
def sampleWR : Nat → Nat → List α → List α
  | _, 0, _ => []
  | g, n + 1, pool =>
    if h : 0 < pool.length then
      let i : Fin pool.length := ⟨g % pool.length, Nat.mod_lt g h⟩
      pool.get i :: sampleWR (lcg g) n (pool.eraseIdx i)
    else []

/-- pandas `pool.sample(n=k, random_state=s)`: with an explicit seed the
draw is a pure function of the pool, the size and the seed. -/
def seededSample (pool : List α) (k : Nat) (s : Nat) : List α := sampleWR (lcg s) k pool

/-- pandas `sample` with an optional `random_state`: an explicit seed gives
the deterministic draw and leaves the ambient process generator `g`
untouched; `random_state=None` (never used by this code) would consume and
advance `g`. -/
def pdSample (g : Nat) (rs : Option Nat) (pool : List α) (k : Nat) : List α × Nat :=
  match rs with
  | some s => (seededSample pool k s, g)
  | none => (sampleWR g k pool, lcg g)

/-- pandas `x > y` over nullable cells: false whenever either is null. -/
def qGtOpt (x y : Option ℚ) : Bool :=
  match x, y with
  | some a, some b => decide (b < a)
  | _, _ => false

/-- pandas `x > 0` over a nullable cell. -/
def qGtZero (x : Option ℚ) : Bool :=
  match x with
  | some a => decide (0 < a)
  | none => false

/-- pandas `x < y` over nullable cells. -/
def qLtOpt (x y : Option ℚ) : Bool :=
  match x, y with
  | some a, some b => decide (a < b)
  | _, _ => false

/-- pandas `.str.startswith('V', na=False)`. -/
def startsWithVna (x : Option String) : Bool :=
  match x with
  | some s => pyStartsWith s "V"
  | none => false

/-- Ordered insertion into a sorted list of rationals. -/
def insertSorted (x : ℚ) : List ℚ → List ℚ
  | [] => [x]
  | y :: ys => if x ≤ y then x :: y :: ys else y :: insertSorted x ys

/-- Insertion sort of rationals. -/
def sortQ (l : List ℚ) : List ℚ := l.foldr insertSorted []

/-- pandas `Series.quantile(0.9)`: linear interpolation over the sorted
non-null values; NaN (`none`, comparing false) on an all-null series. -/
def quantile90 (vals : List (Option ℚ)) : Option ℚ :=
  let xs := sortQ (vals.filterMap id)
  match xs.length with
  | 0 => none
  | Nat.succ m =>
    let pos : ℚ := (9 * m : ℚ) / 10
    let lo : Nat := 9 * m / 10
    let frac : ℚ := pos - (lo : ℚ)
    let xlo := xs.getD lo 0
    let xhi := xs.getD (min (lo + 1) m) 0
    some (xlo + frac * (xhi - xlo))

/-- `drop_duplicates(subset=['bbl'])`: keep the first row per key; `seen`
accumulates the keys already kept. -/
def dedupBbl : List SRec → List Int → List SRec
  | [], _ => []
  | r :: rest, seen =>
    if r.bbl ∈ seen then dedupBbl rest seen
    else r :: dedupBbl rest (r.bbl :: seen)

/-- `int(t * num/den)` taken exactly. -/
def intFrac (t num den : Nat) : Nat := num * t / den

/-- Total row count of a list of samples. -/
def totalLen (ls : List (List SRec)) : Nat := (ls.map List.length).sum

/-- Stage 1 pool: `df[df['borough'] == 'MN']`. -/
def mnPool (df : List SRec) : List SRec := df.filter (fun r => r.borough == "MN")

/-- Stage 1 draw size: `min(len(manhattan), int(target_size * 0.3))`. -/
def mnTaken (df : List SRec) (t : Nat) : Nat := min (mnPool df).length (intFrac t 3 10)

/-- Stage 1 (Manhattan, 30%) sample, appended whenever the pool is
non-empty. -/
def mnSample (df : List SRec) (t : Nat) : List SRec :=
  seededSample (mnPool df) (mnTaken df t) 42

/-- `remaining_target` after stage 1 (no subtraction happens when the pool
is empty, but then the draw size is 0 anyway). -/
def remaining1 (df : List SRec) (t : Nat) : Int := (t : Int) - mnTaken df t

/-- Stage 2 pool: `df[df['bldgclass'].str.startswith('V', na=False)]`. -/
def vacantPool (df : List SRec) : List SRec := df.filter (fun r => startsWithVna r.bldgclass)

/-- Stage 2 allocation, computed before the Manhattan rows are removed:
`min(len(vacant_lots), int(target_size * 0.15))`. -/
def vacantCap (df : List SRec) (t : Nat) : Nat :=
  min (vacantPool df).length (intFrac t 15 100)

/-- Stage 2 pool after `vacant_lots[vacant_lots['borough'] != 'MN']`. -/
def vacantPool2 (df : List SRec) : List SRec :=
  (vacantPool df).filter (fun r => !(r.borough == "MN"))

/-- Stage 2 draw size: `min(sample_size, len(vacant_lots))` after the
filter. -/
def vacantK (df : List SRec) (t : Nat) : Nat := min (vacantCap df t) (vacantPool2 df).length

/-- Conjunction of the guards around the stage 2 append. -/
def vacantGuard (df : List SRec) (t : Nat) : Bool :=
  decide (0 < (vacantPool df).length) && decide (0 < remaining1 df t) &&
    decide (0 < (vacantPool2 df).length)

/-- Stage 2 (vacant lots, 15%) sample. -/
def vacantSample (df : List SRec) (t : Nat) : List SRec :=
  seededSample (vacantPool2 df) (vacantK df t) 42

/-- Rows actually subtracted from `remaining_target` by stage 2. -/
def vacantTaken (df : List SRec) (t : Nat) : Nat :=
  if vacantGuard df t then vacantK df t else 0

/-- `remaining_target` after stage 2. -/
def remaining2 (df : List SRec) (t : Nat) : Int := remaining1 df t - vacantTaken df t

/-- Samples list after stages 1 and 2 (an append happens exactly when the
corresponding guard fired, possibly with an empty draw). -/
def sampleList12 (df : List SRec) (t : Nat) : List (List SRec) :=
  (if 0 < (mnPool df).length then [mnSample df t] else []) ++
    (if vacantGuard df t then [vacantSample df t] else [])

/-- Stage 3 pool: `df[df['assesstot'] > df['assesstot'].quantile(0.9)]`. -/
def hvPool (df : List SRec) : List SRec :=
  df.filter (fun r => qGtOpt r.assesstot (quantile90 (df.map (fun x => x.assesstot))))

/-- Stage 3 allocation: `min(len(high_value), int(target_size * 0.1))`,
computed before the already-sampled keys are removed. -/
def hvCap (df : List SRec) (t : Nat) : Nat := min (hvPool df).length (intFrac t 1 10)

/-- Stage 3 pool after `~isin` on the keys claimed by earlier stages. -/
def hvPool2 (df : List SRec) (t : Nat) : List SRec :=
  (hvPool df).filter (fun r => !((sampleList12 df t).flatten.map SRec.bbl).contains r.bbl)

/-- Stage 3 draw size. -/
def hvK (df : List SRec) (t : Nat) : Nat := min (hvCap df t) (hvPool2 df t).length

/-- Conjunction of the guards around the stage 3 append. -/
def hvGuard (df : List SRec) (t : Nat) : Bool :=
  decide (0 < (hvPool df).length) && decide (0 < remaining2 df t) &&
    decide (0 < (hvPool2 df t).length)

/-- Stage 3 (high assessed value, 10%) sample. -/
def hvSample (df : List SRec) (t : Nat) : List SRec :=
  seededSample (hvPool2 df t) (hvK df t) 42

/-- Rows actually subtracted from `remaining_target` by stage 3. -/
def hvTaken (df : List SRec) (t : Nat) : Nat := if hvGuard df t then hvK df t else 0

/-- `remaining_target` after stage 3. -/
def remaining3 (df : List SRec) (t : Nat) : Int := remaining2 df t - hvTaken df t

/-- Samples list after stages 1-3. -/
def sampleList123 (df : List SRec) (t : Nat) : List (List SRec) :=
  sampleList12 df t ++ (if hvGuard df t then [hvSample df t] else [])

/-- Stage 4 pool:
`df[(df['residfar'] > 0) & (df['builtfar'] < df['residfar'])]`. -/
def devPool (df : List SRec) : List SRec :=
  df.filter (fun r => qGtZero r.residfar && qLtOpt r.builtfar r.residfar)

/-- Stage 4 allocation: `min(len(dev_potential), int(target_size * 0.1))`. -/
def devCap (df : List SRec) (t : Nat) : Nat := min (devPool df).length (intFrac t 1 10)

/-- Stage 4 pool after removing the keys claimed by earlier stages. -/
def devPool2 (df : List SRec) (t : Nat) : List SRec :=
  (devPool df).filter (fun r => !((sampleList123 df t).flatten.map SRec.bbl).contains r.bbl)

/-- Stage 4 draw size. -/
def devK (df : List SRec) (t : Nat) : Nat := min (devCap df t) (devPool2 df t).length

/-- Conjunction of the guards around the stage 4 append. -/
def devGuard (df : List SRec) (t : Nat) : Bool :=
  decide (0 < (devPool df).length) && decide (0 < remaining3 df t) &&
    decide (0 < (devPool2 df t).length)

/-- Stage 4 (development potential, 10%) sample. -/
def devSample (df : List SRec) (t : Nat) : List SRec :=
  seededSample (devPool2 df t) (devK df t) 42

/-- Rows actually subtracted from `remaining_target` by stage 4. -/
def devTaken (df : List SRec) (t : Nat) : Nat := if devGuard df t then devK df t else 0

/-- `remaining_target` after stage 4. -/
def remaining4 (df : List SRec) (t : Nat) : Int := remaining3 df t - devTaken df t

/-- Samples list after stages 1-4. -/
def sampleList1234 (df : List SRec) (t : Nat) : List (List SRec) :=
  sampleList123 df t ++ (if devGuard df t then [devSample df t] else [])

/-- Stage 5 pool: `df[~df['bbl'].isin(existing_bbls)]`. -/
def residualPool (df : List SRec) (t : Nat) : List SRec :=
  df.filter (fun r => !((sampleList1234 df t).flatten.map SRec.bbl).contains r.bbl)

/-- Per-borough residual allocation: `remaining_target // 4` (not
re-decremented inside the borough loop). -/
def boroughQuota (df : List SRec) (t : Nat) : Nat := (remaining4 df t).toNat / 4

/-- Stage 5: one sample per borough of `['BK', 'QN', 'BX', 'SI']` with a
non-empty pool and a positive draw size. -/
def residualParts (df : List SRec) (t : Nat) : List (List SRec) :=
  if 0 < remaining4 df t then
    if 0 < (residualPool df t).length then
      ["BK", "QN", "BX", "SI"].filterMap fun b =>
        let bdf := (residualPool df t).filter (fun r => r.borough == b)
        if 0 < bdf.length then
          let sz := min bdf.length (boroughQuota df t)
          if 0 < sz then some (seededSample bdf sz 42) else none
        else none
    else []
  else []

/-- The full `samples` list at the end of the quota stages. -/
def sampleList (df : List SRec) (t : Nat) : List (List SRec) :=
  sampleList1234 df t ++ residualParts df t

/-- Model of `create_strategic_sample(df, target_size)`: if any quota stage
appended a sample, concatenate and deduplicate by bbl; otherwise fall back
to `df.sample(n=min(target_size, len(df)), random_state=42)` — with no
deduplication.  The ambient generator `g` is threaded to state what the
code never uses it: every draw passes `random_state=42`. -/
def createStrategicSample (g : Nat) (df : List SRec) (t : Nat) : List SRec × Nat :=
  if sampleList df t ≠ [] then (dedupBbl (sampleList df t).flatten [], g)
  else pdSample g (some 42) df (min t df.length)

/-- Two rows sharing the key 1 in a borough outside every quota. -/
def dfDupKeys : List SRec :=
  [{ bbl := 1, borough := "XX", address := "a", bldgclass := none,
     assesstot := none, residfar := none, builtfar := none },
   { bbl := 1, borough := "XX", address := "b", bldgclass := none,
     assesstot := none, residfar := none, builtfar := none }]

/-- A one-row Manhattan dataframe with distinct keys. -/
def dfOneMN : List SRec :=
  [{ bbl := 1000010001, borough := "MN", address := "1 Centre St",
     bldgclass := some "O4", assesstot := some 100, residfar := some 2,
     builtfar := some 1 }]

/-- C1, counterexample: a raw record with no `bbl` field at all is not
rejected by `transform_record` — it is emitted with the key defaulted to
`0`, falsifying "it never emits a normalized record with a defaulted or
fabricated key". -/
theorem transform_missing_bbl_emits_defaulted_key :
    emptyRaw "bbl" = none ∧ Option.map NRec.bbl (transformRecord emptyRaw) = some 0 :=
  ⟨rfl, rfl⟩

/-- C1, amended: `transform_record` rejects a record only when its key is
present but unparsable (the `int(...)` call raises); an absent `bbl`
parses from the `'0'` default, so the record is emitted with key `0`. -/
theorem transform_rejects_only_unparsable_key (r : RawRecord) :
    (pyInt (truthyOr (r "bbl") "0") = none → transformRecord r = none) ∧
    (∀ rec : NRec, r "bbl" = none → transformRecord r = some rec → rec.bbl = 0) := by
  constructor
  · intro h
    unfold transformRecord
    rw [h]
  · intro rec hb htr
    have h0 : pyInt (truthyOr (r "bbl") "0") = some 0 := by
      rw [hb]; decide
    unfold transformRecord at htr
    rw [h0] at htr
    cases h2 : pyInt (truthyOr (r "block") "0") with
    | none => rw [h2] at htr; exact absurd htr (by simp)
    | some block =>
      cases h3 : pyInt (truthyOr (r "lot") "0") with
      | none => rw [h2, h3] at htr; exact absurd htr (by simp)
      | some lot =>
        cases h4 : getBuiltStatus r with
        | none => rw [h2, h3, h4] at htr; exact absurd htr (by simp)
        | some bs =>
          rw [h2, h3, h4] at htr
          simp only [Option.some.injEq] at htr
          rw [← htr]

/-- C1, witness: the amended theorem applied at two concrete records — one
with an unparsable key (rejected) and one with an absent key (emitted with
key `0`). -/
theorem transform_rejects_only_unparsable_key_witness :
    transformRecord badKeyRaw = none ∧
      NRec.bbl ((transformRecord emptyRaw).getD default) = 0 :=
  ⟨(transform_rejects_only_unparsable_key badKeyRaw).1 (by decide),
   (transform_rejects_only_unparsable_key emptyRaw).2
     ((transformRecord emptyRaw).getD default) rfl (by decide)⟩

/-- C4: whenever `get_built_status` returns a status (no parse exception
escapes to `transform_record`), the status is `vacant` or `built`, and it is
`vacant` exactly when the building-class code starts with `V`, or the year
built parses to `0` (an absent field is treated as `'0'`), or the building
area parses to `0`. -/
theorem built_status_vacant_iff (r : RawRecord) (s : String)
    (h : getBuiltStatus r = some s) :
    (s = "vacant" ∨ s = "built") ∧
    (s = "vacant" ↔
      pyStartsWith (bldgclassOf r) "V" = true ∨ yearbuiltParsed r = some 0 ∨
        bldgareaParsed r = some 0) := by
  unfold getBuiltStatus at h
  by_cases hv : pyStartsWith (bldgclassOf r) "V" = true
  · rw [if_pos hv] at h
    simp only [Option.some.injEq] at h
    subst h
    exact ⟨Or.inl rfl, by simp [hv]⟩
  · rw [if_neg hv] at h
    cases hy : yearbuiltParsed r with
    | none => rw [hy] at h; exact absurd h (by simp)
    | some y =>
      rw [hy] at h
      dsimp only at h
      by_cases hy0 : y = 0
      · subst hy0
        rw [if_pos rfl] at h
        simp only [Option.some.injEq] at h
        subst h
        exact ⟨Or.inl rfl, by simp [hy]⟩
      · rw [if_neg hy0] at h
        cases ha : bldgareaParsed r with
        | none => rw [ha] at h; exact absurd h (by simp)
        | some a =>
          rw [ha] at h
          dsimp only at h
          by_cases ha0 : a = 0
          · subst ha0
            rw [if_pos rfl] at h
            simp only [Option.some.injEq] at h
            subst h
            exact ⟨Or.inl rfl, by simp [ha]⟩
          · rw [if_neg ha0] at h
            simp only [Option.some.injEq] at h
            subst h
            refine ⟨Or.inr rfl, ?_⟩
            constructor
            · intro hbad; exact absurd hbad (by decide)
            · rintro (hc | hc | hc)
              · exact absurd hc hv
              · exact absurd (Option.some.inj hc) hy0
              · exact absurd (Option.some.inj hc) ha0

/-- C4, witness: the theorem applied at a concrete built record
(`bldgclass R4`, `yearbuilt 1925`, `bldgarea 5000`). -/
theorem built_status_vacant_iff_witness :
    ("built" = "vacant" ∨ "built" = "built") ∧
    ("built" = "vacant" ↔
      pyStartsWith (bldgclassOf builtRaw) "V" = true ∨ yearbuiltParsed builtRaw = some 0 ∨
        bldgareaParsed builtRaw = some 0) :=
  built_status_vacant_iff builtRaw "built" (by decide)

/-- Lookup after a batch upsert: the latest batch row with that key wins;
keys not in the batch are untouched. -/
theorem insertBatch_lookup (b : List NRec) (t : PropTable) (k : Int) :
    insertBatch t b k = (lastWithKey b k).or (t k) := by
  induction b generalizing t with
  | nil => simp [insertBatch, lastWithKey]
  | cons r rest ih =>
    show insertBatch (upsertOne t r) rest k = _
    rw [ih]
    have : lastWithKey (r :: rest) k =
        (lastWithKey rest k).or (if r.bbl == k then some r else none) := by
      simp [lastWithKey, List.find?_append]
    rw [this]
    cases h : lastWithKey rest k with
    | some x => simp [Option.or]
    | none =>
      simp only [Option.or]
      unfold upsertOne
      by_cases hk : k = r.bbl
      · simp [hk]
      · have : (r.bbl == k) = false := by
          simp [beq_iff_eq]
          exact fun he => hk he.symm
        simp [this, hk]

/-- C5: applying the batch upsert twice with an identical batch leaves the
table in the same state as applying it once — the `bbl` conflict overwrites
every non-key column, the keyed table holds no duplicate rows, and every
column value after the second application equals the value after the
first. -/
theorem upsert_idempotent (t : PropTable) (b : List NRec) :
    insertBatch (insertBatch t b) b = insertBatch t b := by
  funext k
  rw [insertBatch_lookup, insertBatch_lookup]
  cases h : lastWithKey b k <;> simp [Option.or]

/-- Accumulator form of the batch loop: the final table reflects exactly
the successful batches, and the reported total counts exactly their rows. -/
theorem runBatches_eq (bs : List (List NRec × Bool)) (t : PropTable) (acc : Nat) :
    runBatches t acc bs =
      (List.foldl insertBatch t ((bs.filter Prod.snd).map Prod.fst),
       acc + (((bs.filter Prod.snd).map Prod.fst).map List.length).sum) := by
  induction bs generalizing t acc with
  | nil => simp [runBatches]
  | cons p rest ih =>
    obtain ⟨b, ok⟩ := p
    show runBatches (insertProperties t b ok).1 (acc + (insertProperties t b ok).2) rest = _
    cases ok with
    | false =>
      have hip : insertProperties t b false = (t, 0) := by
        unfold insertProperties
        split <;> simp
      rw [hip]
      simpa using ih t acc
    | true =>
      by_cases hb : b.isEmpty
      · have hb' : b = [] := List.isEmpty_iff.mp hb
        subst hb'
        have hip : insertProperties t [] true = (t, 0) := by
          unfold insertProperties; simp
        rw [hip]
        have : insertBatch t [] = t := rfl
        simp [List.filter, this]
        simpa using ih t acc
      · have hip : insertProperties t b true = (insertBatch t b, b.length) := by
          unfold insertProperties
          simp [hb]
        rw [hip]
        simp only [List.filter, List.map, List.foldl, List.sum_cons]
        rw [ih (insertBatch t b) (acc + b.length)]
        rw [Prod.mk.injEq]
        exact ⟨rfl, by omega⟩

/-- C6: a failed batch is rolled back whole — the table is unchanged and
the batch reports zero rows — and the run continues through every remaining
batch: the final table and total reflect exactly the successful batches. -/
theorem failed_batch_rolled_back_run_continues (t : PropTable) (b : List NRec)
    (bs : List (List NRec × Bool)) :
    insertProperties t b false = (t, 0) ∧
    runBatches t 0 bs =
      (List.foldl insertBatch t ((bs.filter Prod.snd).map Prod.fst),
       (((bs.filter Prod.snd).map Prod.fst).map List.length).sum) := by
  constructor
  · unfold insertProperties
    split <;> simp
  · simpa using runBatches_eq bs t 0

/-- C2, counterexample: a run whose very first page fetch fails is not
aborted — `fetch_pluto_data` swallows the exception and returns `[]`, the
loop treats it as source exhaustion, the run reports success with zero
records, and the watermark is still advanced. -/
theorem fetch_error_not_aborting_watermark_advances :
    (incrementalLoad [FetchResult.err]).failed = false ∧
    (incrementalLoad [FetchResult.err]).watermarkAdvanced = true ∧
    (incrementalLoad [FetchResult.err]).stats = ⟨0, 0⟩ :=
  ⟨rfl, rfl, rfl⟩

/-- C2, amended: a page-fetch failure is returned as an empty page, which
the loop treats as normal source exhaustion (processing stops there,
whatever pages would have followed); the run never enters a failed state
and the watermark is advanced unconditionally at the end of every run. -/
theorem fetch_error_treated_as_exhaustion (responses rest : List FetchResult)
    (st : RunStats) :
    fetchPlutoData FetchResult.err = [] ∧
    processBorough (FetchResult.err :: rest) st = st ∧
    (incrementalLoad responses).failed = false ∧
    (incrementalLoad responses).watermarkAdvanced = true :=
  ⟨rfl, rfl, rfl, rfl⟩

/-- C3, counterexample: a record vacant by the year-built rule
(`built_status = vacant` since `yearbuilt == 0`) whose building class is
`R4` and land use `05` still gets `is_vacant = false` — `is_vacant` is not
derived from `built_status`, falsifying "is_vacant is true exactly when
built_status is vacant or the land-use code equals 11". -/
theorem is_vacant_misses_yearbuilt_vacancy :
    getBuiltStatusRow (some "R4") 0 5000 = "vacant" ∧
    isVacantFlag (some "R4") (some "05") = false :=
  ⟨by decide, by decide⟩

/-- C3, amended: `is_vacant` is true exactly when the (uppercased)
building-class code starts with `V` or the land-use code equals `"11"`; in
particular every record whose class starts with `V` (e.g. `V0`) is flagged,
but a record whose `built_status` is vacant only because of a zero year
built or building area is not. -/
theorem is_vacant_iff_class_or_landuse (bldgclass landuse : Option String) :
    (isVacantFlag bldgclass landuse = true ↔
      (∃ s, bldgclass = some s ∧ pyStartsWith (pyToUpper s) "V" = true) ∨
        landuse = some "11") ∧
    (∀ lu : Option String, isVacantFlag (some "V0") lu = true) := by
  constructor
  · cases bldgclass with
    | none => simp [isVacantFlag]
    | some s => simp [isVacantFlag]
  · intro lu
    have h : pyStartsWith (pyToUpper "V0") "V" = true := by decide
    simp [isVacantFlag, h]

mutual

/-- Sanitized values are clean in the claim's scope. -/
theorem sanitizeEntry_clean : ∀ v : PyVal, entryClean (sanitizeEntry v) = true
  | .none => rfl
  | .int _ => rfl
  | .str _ => rfl
  | .float f => by
    cases f <;> simp [sanitizeEntry, entryClean, PyFloat.nonFinite]
  | .list l => by
    simp only [sanitizeEntry, entryClean]
    exact sanitizeItems_clean l
  | .dict d => by
    simp only [sanitizeEntry, entryClean]
    exact sanitizeRecord_clean d

/-- Sanitized records are clean in the claim's scope. -/
theorem sanitizeRecord_clean : ∀ r : List (String × PyVal), recordClean (sanitizeRecord r) = true
  | [] => rfl
  | (k, v) :: rest => by
    simp only [sanitizeRecord, recordClean, Bool.and_eq_true]
    exact ⟨sanitizeEntry_clean v, sanitizeRecord_clean rest⟩

/-- Sanitized list items are clean in the claim's scope. -/
theorem sanitizeItems_clean : ∀ l : List PyVal, itemsClean (sanitizeItems l) = true
  | [] => rfl
  | .dict d :: rest => by
    simp only [sanitizeItems, itemsClean, Bool.and_eq_true]
    exact ⟨sanitizeRecord_clean d, sanitizeItems_clean rest⟩
  | .none :: rest => sanitizeItems_clean rest
  | .int _ :: rest => sanitizeItems_clean rest
  | .str _ :: rest => sanitizeItems_clean rest
  | .float _ :: rest => sanitizeItems_clean rest
  | .list _ :: rest => sanitizeItems_clean rest

end

mutual

/-- The sanitizer only changes non-finite floats: on an already-clean value
it is the identity. -/
theorem sanitizeEntry_id : ∀ v : PyVal, entryClean v = true → sanitizeEntry v = v
  | .none, _ => rfl
  | .int _, _ => rfl
  | .str _, _ => rfl
  | .float f, h => by
    simp only [entryClean, Bool.not_eq_true'] at h
    simp [sanitizeEntry, h]
  | .list l, h => by
    simp only [sanitizeEntry, PyVal.list.injEq]
    exact sanitizeItems_id l h
  | .dict d, h => by
    simp only [sanitizeEntry, PyVal.dict.injEq]
    exact sanitizeRecord_id d h

/-- On an already-clean record the sanitizer is the identity. -/
theorem sanitizeRecord_id :
    ∀ r : List (String × PyVal), recordClean r = true → sanitizeRecord r = r
  | [], _ => rfl
  | (k, v) :: rest, h => by
    simp only [recordClean, Bool.and_eq_true] at h
    show (k, sanitizeEntry v) :: sanitizeRecord rest = (k, v) :: rest
    rw [sanitizeEntry_id v h.1, sanitizeRecord_id rest h.2]

/-- On already-clean list items the sanitizer is the identity. -/
theorem sanitizeItems_id : ∀ l : List PyVal, itemsClean l = true → sanitizeItems l = l
  | [], _ => rfl
  | .dict d :: rest, h => by
    simp only [itemsClean, Bool.and_eq_true] at h
    show PyVal.dict (sanitizeRecord d) :: sanitizeItems rest = PyVal.dict d :: rest
    rw [sanitizeRecord_id d h.1, sanitizeItems_id rest h.2]
  | .none :: rest, h => by
    show PyVal.none :: sanitizeItems rest = PyVal.none :: rest
    rw [sanitizeItems_id rest h]
  | .int i :: rest, h => by
    show PyVal.int i :: sanitizeItems rest = PyVal.int i :: rest
    rw [sanitizeItems_id rest h]
  | .str s :: rest, h => by
    show PyVal.str s :: sanitizeItems rest = PyVal.str s :: rest
    rw [sanitizeItems_id rest h]
  | .float f :: rest, h => by
    show PyVal.float f :: sanitizeItems rest = PyVal.float f :: rest
    rw [sanitizeItems_id rest h]
  | .list l :: rest, h => by
    show PyVal.list l :: sanitizeItems rest = PyVal.list l :: rest
    rw [sanitizeItems_id rest h]

end

/-- C9: every record of every batch that `upsert_chunks` hands to the
destination upsert is sanitized — no value at the top level or inside a
nested dict is a non-finite float — and the sanitizer changes nothing else:
it is the identity on records already free of non-finite floats. -/
theorem upsert_chunks_records_sanitized (df : List (List (String × PyVal)))
    (chunkSize : Nat) (hpos : 0 < chunkSize) :
    (∀ batch ∈ upsertChunksData df chunkSize, ∀ rec ∈ batch, recordClean rec = true) ∧
    (∀ r : List (String × PyVal), recordClean r = true → sanitizeRecord r = r) := by
  refine ⟨?_, fun r hr => sanitizeRecord_id r hr⟩
  intro batch hb rec hr
  simp only [upsertChunksData, List.mem_map, List.mem_range] at hb
  obtain ⟨i, _, rfl⟩ := hb
  simp only [List.mem_map] at hr
  obtain ⟨r0, _, rfl⟩ := hr
  exact sanitizeRecord_clean _

/-- C9, witness: the theorem applied at a concrete dataframe containing a
NaN cell and an infinite cell in a nested dict, chunk size 1; the single
emitted record has both non-finite floats replaced by `None` and is
clean. -/
theorem upsert_chunks_records_sanitized_witness :
    recordClean [("assesstot", PyVal.none), ("bbl", PyVal.int 1000010001),
      ("meta", PyVal.dict [("ratio", PyVal.none), ("name", PyVal.str "x")])] = true :=
  (upsert_chunks_records_sanitized dirtyDf 1 (by decide)).1
    [[("assesstot", PyVal.none), ("bbl", PyVal.int 1000010001),
      ("meta", PyVal.dict [("ratio", PyVal.none), ("name", PyVal.str "x")])]]
    (by exact List.mem_singleton.mpr rfl)
    [("assesstot", PyVal.none), ("bbl", PyVal.int 1000010001),
      ("meta", PyVal.dict [("ratio", PyVal.none), ("name", PyVal.str "x")])]
    (by exact List.mem_singleton.mpr rfl)

/-- Concatenation of an `i * s`-indexed take/drop split recovers the list. -/
theorem splitWith_join (s : Nat) :
    ∀ (n : Nat) (l : List α), 1 ≤ n →
      ((List.range n).map fun i =>
        if i = n - 1 then l.drop (i * s) else (l.drop (i * s)).take s).flatten = l := by
  intro n
  induction n with
  | zero => intro l h; exact absurd h (by omega)
  | succ n ih =>
    intro l _
    by_cases hn : n = 0
    · subst hn
      show (List.map _ (List.range 1)).flatten = l
      rw [List.range_succ]
      simp
    · have h1 : 1 ≤ n := by omega
      rw [List.range_succ_eq_map]
      simp only [List.map_cons, List.map_map, List.flatten_cons]
      have hfirst : (if 0 = n + 1 - 1 then l.drop (0 * s) else (l.drop (0 * s)).take s)
          = l.take s := by
        rw [if_neg (by omega)]
        simp
      rw [hfirst]
      have hrest : ((List.range n).map
          ((fun i => if i = n + 1 - 1 then l.drop (i * s) else (l.drop (i * s)).take s) ∘ Nat.succ)).flatten
          = l.drop s := by
        have hcong : ∀ i ∈ List.range n,
            ((fun i => if i = n + 1 - 1 then l.drop (i * s) else (l.drop (i * s)).take s) ∘ Nat.succ) i
              = (fun i =>
                  if i = n - 1 then (l.drop s).drop (i * s)
                  else ((l.drop s).drop (i * s)).take s) i := by
          intro i _
          simp only [Function.comp]
          have hidx : (l.drop s).drop (i * s) = l.drop (Nat.succ i * s) := by
            rw [List.drop_drop]
            congr 1
            rw [Nat.succ_eq_add_one]
            ring
          by_cases hi : i = n - 1
          · rw [if_pos (by omega), if_pos hi, hidx]
          · rw [if_neg (by omega), if_neg hi, hidx]
        rw [List.map_congr_left hcong]
        exact ih (l.drop s) h1
      rw [hrest]
      exact List.take_append_drop s l

/-- C10: for every cleaned dataframe and every `num_splits ≥ 1`, the
splitter emits exactly `num_splits` files whose concatenation in file order
is the dataframe itself (each row in exactly one file, order preserved),
and the last file is the tail slice holding any remainder rows. -/
theorem split_csv_partition {α : Type} (df : List α) (n : Nat) (h : 1 ≤ n) :
    (splitParts df n).length = n ∧
    (splitParts df n).flatten = df ∧
    (splitParts df n)[n - 1]? = some (df.drop ((n - 1) * splitSize df n)) := by
  refine ⟨by simp [splitParts], splitWith_join (splitSize df n) n df h, ?_⟩
  have hlt : n - 1 < n := by omega
  simp only [splitParts, List.getElem?_map, List.getElem?_range hlt, Option.map_some']
  simp

/-- C10, witness: the theorem applied at a 5-row dataframe split into 2
files (sizes 2 and 3). -/
theorem split_csv_partition_witness :
    (splitParts [10, 20, 30, 40, 50] 2).length = 2 ∧
    (splitParts [10, 20, 30, 40, 50] 2).flatten = [10, 20, 30, 40, 50] ∧
    (splitParts [10, 20, 30, 40, 50] 2)[2 - 1]? =
      some ([10, 20, 30, 40, 50].drop ((2 - 1) * splitSize [10, 20, 30, 40, 50] 2)) :=
  split_csv_partition [10, 20, 30, 40, 50] 2 (by decide)

theorem sampleWR_length : ∀ (n g : Nat) (pool : List α),
    (sampleWR g n pool).length = min n pool.length := by
  intro n
  induction n with
  | zero => intro g pool; simp [sampleWR]
  | succ n ih =>
    intro g pool
    by_cases h : 0 < pool.length
    · rw [sampleWR, dif_pos h]
      simp only [List.length_cons, ih]
      rw [List.length_eraseIdx pool _, if_pos (Nat.mod_lt g h)]
      omega
    · rw [sampleWR, dif_neg h]
      simp only [List.length_nil]
      omega

theorem map_eraseIdx_comm (f : α → β) : ∀ (l : List α) (i : Nat),
    (l.eraseIdx i).map f = (l.map f).eraseIdx i := by
  intro l
  induction l with
  | nil => intro i; simp
  | cons x xs ih =>
    intro i
    cases i with
    | zero => simp [List.eraseIdx]
    | succ j => simp [List.eraseIdx, ih j]

theorem sampleWR_map (f : α → β) : ∀ (n g : Nat) (pool : List α),
    (sampleWR g n pool).map f = sampleWR g n (pool.map f) := by
  intro n
  induction n with
  | zero => intro g pool; simp [sampleWR]
  | succ n ih =>
    intro g pool
    by_cases h : 0 < pool.length
    · have h' : 0 < (pool.map f).length := by simpa using h
      rw [sampleWR, dif_pos h, sampleWR, dif_pos h']
      rw [List.map_cons]
      congr 1
      · simp
      · rw [ih, map_eraseIdx_comm]
        congr 2
        simp
    · have h' : ¬ 0 < (pool.map f).length := by simpa using h
      rw [sampleWR, dif_neg h, sampleWR, dif_neg h']
      simp

theorem mem_of_mem_sampleWR : ∀ (n g : Nat) (pool : List α) (x : α),
    x ∈ sampleWR g n pool → x ∈ pool := by
  intro n
  induction n with
  | zero => intro g pool x hx; simp [sampleWR] at hx
  | succ n ih =>
    intro g pool x hx
    by_cases h : 0 < pool.length
    · rw [sampleWR, dif_pos h] at hx
      rcases List.mem_cons.mp hx with hx | hx
      · rw [hx]; exact pool.get_mem _ _
      · exact (List.eraseIdx_sublist pool _).subset (ih _ _ x hx)
    · rw [sampleWR, dif_neg h] at hx
      simp at hx

theorem not_mem_eraseIdx_of_nodup :
    ∀ (l : List α) (i : Nat) (h : i < l.length), l.Nodup → l[i] ∉ l.eraseIdx i := by
  intro l
  induction l with
  | nil => intro i h; exact absurd h (by simp)
  | cons x xs ih =>
    intro i h hnd
    rcases List.nodup_cons.mp hnd with ⟨hx, hxs⟩
    cases i with
    | zero => simpa using hx
    | succ j =>
      have hj : j < xs.length := by simpa using h
      simp only [List.getElem_cons_succ, List.eraseIdx_cons_succ, List.mem_cons]
      rintro (hc | hc)
      · exact hx (hc ▸ xs.getElem_mem hj)
      · exact ih j hj hxs hc

theorem sampleWR_nodup : ∀ (n g : Nat) (l : List α), l.Nodup → (sampleWR g n l).Nodup := by
  intro n
  induction n with
  | zero => intro g l _; simp [sampleWR]
  | succ n ih =>
    intro g l hnd
    by_cases h : 0 < l.length
    · rw [sampleWR, dif_pos h]
      refine List.nodup_cons.mpr ⟨?_, ih _ _ ((l.eraseIdx_sublist _).nodup hnd)⟩
      intro hc
      have hidx : g % l.length < l.length := Nat.mod_lt g h
      have := mem_of_mem_sampleWR _ _ _ _ hc
      rw [List.get_eq_getElem] at this
      exact not_mem_eraseIdx_of_nodup l (g % l.length) hidx hnd this
    · rw [sampleWR, dif_neg h]
      simp

theorem seededSample_length (pool : List α) (k s : Nat) :
    (seededSample pool k s).length = min k pool.length := sampleWR_length k (lcg s) pool

theorem dedupBbl_spec : ∀ (l : List SRec) (seen : List Int),
    ((dedupBbl l seen).map SRec.bbl).Nodup ∧
    ∀ k ∈ seen, k ∉ (dedupBbl l seen).map SRec.bbl := by
  intro l
  induction l with
  | nil => intro seen; exact ⟨by simp [dedupBbl], by simp [dedupBbl]⟩
  | cons r rest ih =>
    intro seen
    by_cases h : r.bbl ∈ seen
    · rw [dedupBbl, if_pos h]
      exact ih seen
    · rw [dedupBbl, if_neg h]
      obtain ⟨ihn, ihs⟩ := ih (r.bbl :: seen)
      constructor
      · simp only [List.map_cons, List.nodup_cons]
        exact ⟨ihs r.bbl (by simp), ihn⟩
      · intro k hk
        simp only [List.map_cons, List.mem_cons, not_or]
        constructor
        · rintro rfl; exact h hk
        · exact ihs k (by simp [hk])

theorem dedupBbl_length_le : ∀ (l : List SRec) (seen : List Int),
    (dedupBbl l seen).length ≤ l.length := by
  intro l
  induction l with
  | nil => intro seen; simp [dedupBbl]
  | cons r rest ih =>
    intro seen
    rw [dedupBbl]
    split
    · calc (dedupBbl rest seen).length ≤ rest.length := ih seen
        _ ≤ (r :: rest).length := by simp
    · simpa using ih (r.bbl :: seen)

theorem caps_sum_le (t : Nat) :
    intFrac t 3 10 + intFrac t 15 100 + intFrac t 1 10 + intFrac t 1 10 ≤ t := by
  have h3 : intFrac t 3 10 = 30 * t / 100 := by
    rw [intFrac, show (30 : ℕ) * t = 10 * (3 * t) from by ring,
      show (100 : ℕ) = 10 * 10 from rfl, Nat.mul_div_mul_left _ _ (by norm_num)]
  have h1 : intFrac t 1 10 = 10 * t / 100 := by
    rw [intFrac, show (10 : ℕ) * t = 10 * (1 * t) from by ring,
      show (100 : ℕ) = 10 * 10 from rfl, Nat.mul_div_mul_left _ _ (by norm_num)]
  have h15 : intFrac t 15 100 = 15 * t / 100 := rfl
  have hadd : ∀ a b : ℕ, a / 100 + b / 100 ≤ (a + b) / 100 := by
    intro a b
    rw [Nat.le_div_iff_mul_le (by norm_num : (0 : ℕ) < 100)]
    have ha := Nat.div_mul_le_self a 100
    have hb := Nat.div_mul_le_self b 100
    nlinarith
  have s1 := hadd (30 * t) (15 * t)
  have s2 := hadd (30 * t + 15 * t) (10 * t)
  have s3 := hadd (30 * t + 15 * t + 10 * t) (10 * t)
  have hfin : (30 * t + 15 * t + 10 * t + 10 * t) / 100 ≤ t := by
    rw [show 30 * t + 15 * t + 10 * t + 10 * t = 65 * t from by ring]
    calc 65 * t / 100 ≤ 100 * t / 100 := Nat.div_le_div_right (by nlinarith)
      _ = t := by rw [Nat.mul_div_cancel_left t (by norm_num)]
  omega

theorem intFrac_le_round (t num den : Nat) (_hden : 0 < den) :
    (intFrac t num den : ℤ) ≤ round (((num : ℚ) / (den : ℚ)) * t) := by
  rw [round_eq, Int.le_floor]
  have hcast : ((num * t / den : ℕ) : ℚ) ≤ ((num * t : ℕ) : ℚ) / (den : ℚ) :=
    Nat.cast_div_le
  unfold intFrac
  calc ((num * t / den : ℕ) : ℚ) ≤ (num : ℚ) * t / den := by push_cast at hcast ⊢; linarith
    _ = (num : ℚ) / den * t := by ring
    _ ≤ (num : ℚ) / den * t + 1 / 2 := by linarith

theorem totalLen_append (a b : List (List SRec)) :
    totalLen (a ++ b) = totalLen a + totalLen b := by simp [totalLen]

theorem mnSample_length (df : List SRec) (t : Nat) :
    (mnSample df t).length = mnTaken df t := by
  rw [mnSample, seededSample_length, mnTaken]
  omega

theorem vacantSample_length (df : List SRec) (t : Nat) :
    (vacantSample df t).length = vacantK df t := by
  rw [vacantSample, seededSample_length, vacantK]
  omega

theorem hvSample_length (df : List SRec) (t : Nat) :
    (hvSample df t).length = hvK df t := by
  rw [hvSample, seededSample_length, hvK]
  omega

theorem devSample_length (df : List SRec) (t : Nat) :
    (devSample df t).length = devK df t := by
  rw [devSample, seededSample_length, devK]
  omega

theorem sampleList1234_total (df : List SRec) (t : Nat) :
    totalLen (sampleList1234 df t) =
      mnTaken df t + vacantTaken df t + hvTaken df t + devTaken df t := by
  have hone : ∀ (P : Prop) [Decidable P] (x : List SRec),
      totalLen (if P then [x] else []) = if P then x.length else 0 := by
    intro P _ x; split <;> simp [totalLen]
  rw [sampleList1234, sampleList123, sampleList12, totalLen_append, totalLen_append,
    totalLen_append, hone, hone, hone, hone]
  have hmn : (if 0 < (mnPool df).length then (mnSample df t).length else 0) = mnTaken df t := by
    rw [mnSample_length]
    split
    · rfl
    · rw [mnTaken]; omega
  have hvac : (if vacantGuard df t = true then (vacantSample df t).length else 0)
      = vacantTaken df t := by
    rw [vacantSample_length, vacantTaken]
  have hhv : (if hvGuard df t = true then (hvSample df t).length else 0) = hvTaken df t := by
    rw [hvSample_length, hvTaken]
  have hdev : (if devGuard df t = true then (devSample df t).length else 0) = devTaken df t := by
    rw [devSample_length, devTaken]
  rw [hmn, hvac, hhv, hdev]

theorem remaining4_eq (df : List SRec) (t : Nat) :
    remaining4 df t =
      (t : Int) - (mnTaken df t + vacantTaken df t + hvTaken df t + devTaken df t) := by
  rw [remaining4, remaining3, remaining2, remaining1]
  ring

theorem takens_le (df : List SRec) (t : Nat) :
    mnTaken df t ≤ intFrac t 3 10 ∧ vacantTaken df t ≤ intFrac t 15 100 ∧
      hvTaken df t ≤ intFrac t 1 10 ∧ devTaken df t ≤ intFrac t 1 10 := by
  refine ⟨Nat.min_le_right _ _, ?_, ?_, ?_⟩
  · rw [vacantTaken]
    split
    · calc vacantK df t ≤ vacantCap df t := Nat.min_le_left _ _
        _ ≤ intFrac t 15 100 := Nat.min_le_right _ _
    · exact Nat.zero_le _
  · rw [hvTaken]
    split
    · calc hvK df t ≤ hvCap df t := Nat.min_le_left _ _
        _ ≤ intFrac t 1 10 := Nat.min_le_right _ _
    · exact Nat.zero_le _
  · rw [devTaken]
    split
    · calc devK df t ≤ devCap df t := Nat.min_le_left _ _
        _ ≤ intFrac t 1 10 := Nat.min_le_right _ _
    · exact Nat.zero_le _

theorem remaining4_nonneg (df : List SRec) (t : Nat) : 0 ≤ remaining4 df t := by
  rw [remaining4_eq]
  obtain ⟨h1, h2, h3, h4⟩ := takens_le df t
  have hc := caps_sum_le t
  omega

theorem totalLen_filterMap_le (bs : List String) (f : String → Option (List SRec)) (c : Nat)
    (h : ∀ b l, f b = some l → l.length ≤ c) :
    totalLen (bs.filterMap f) ≤ bs.length * c := by
  induction bs with
  | nil => simp [totalLen]
  | cons b rest ih =>
    rw [List.filterMap_cons]
    cases hf : f b with
    | none =>
      calc totalLen (rest.filterMap f) ≤ rest.length * c := ih
        _ ≤ (b :: rest).length * c := by
          simp only [List.length_cons]
          nlinarith
    | some l =>
      have h1 := h b l hf
      have h2 := ih
      simp only [totalLen, List.map_cons, List.sum_cons, List.length_cons]
      have he : (rest.length + 1) * c = rest.length * c + c := by ring
      have h2' : (List.map List.length (rest.filterMap f)).sum ≤ rest.length * c := h2
      omega

theorem residualParts_total_le (df : List SRec) (t : Nat) :
    totalLen (residualParts df t) ≤ (remaining4 df t).toNat := by
  rw [residualParts]
  split
  · split
    · refine le_trans (totalLen_filterMap_le _ _ (boroughQuota df t) ?_) ?_
      · intro b l hf
        simp only at hf
        split at hf
        · split at hf
          · rw [← Option.some.inj hf, seededSample_length]
            rw [boroughQuota]
            omega
          · exact absurd hf (by simp)
        · exact absurd hf (by simp)
      · show (4 : ℕ) * boroughQuota df t ≤ (remaining4 df t).toNat
        rw [boroughQuota]
        calc 4 * ((remaining4 df t).toNat / 4) = (remaining4 df t).toNat / 4 * 4 := by ring
          _ ≤ (remaining4 df t).toNat := Nat.div_mul_le_self _ 4
    · simp [totalLen]
  · simp [totalLen]

/-- C8: for the fixed seed 42 passed as `random_state` at every draw, two
invocations of the sampler on the same input set and target size return
exactly the same sample, whatever the ambient process randomness of either
run (the draw never reads or advances the ambient generator). -/
theorem strategic_sample_deterministic (g1 g2 : Nat) (df : List SRec) (t : Nat) :
    (createStrategicSample g1 df t).1 = (createStrategicSample g2 df t).1 := by
  unfold createStrategicSample
  by_cases h : sampleList df t ≠ []
  · rw [if_pos h, if_pos h]
  · rw [if_neg h, if_neg h]
    simp [pdSample]

/-- C7, amended: when the input rows carry pairwise-distinct keys, the
sample has no duplicate bbl, its total size is at most the target size, and
each quota stage contributes at most `round(fraction x target)` rows (the
code takes `int(fraction x target)`, which never exceeds the round). -/
theorem strategic_sample_bounds (g : Nat) (df : List SRec) (t : Nat)
    (hkeys : (df.map SRec.bbl).Nodup) :
    ((createStrategicSample g df t).1.map SRec.bbl).Nodup ∧
    (createStrategicSample g df t).1.length ≤ t ∧
    ((mnSample df t).length : ℤ) ≤ round (((3 : ℚ) / 10) * t) ∧
    ((vacantSample df t).length : ℤ) ≤ round (((15 : ℚ) / 100) * t) ∧
    ((hvSample df t).length : ℤ) ≤ round (((1 : ℚ) / 10) * t) ∧
    ((devSample df t).length : ℤ) ≤ round (((1 : ℚ) / 10) * t) := by
  have hquota : ∀ (len num den : Nat), len ≤ intFrac t num den → 0 < den →
      (len : ℤ) ≤ round (((num : ℚ) / (den : ℚ)) * t) := by
    intro len num den hle hden
    calc (len : ℤ) ≤ (intFrac t num den : ℤ) := by exact_mod_cast hle
      _ ≤ _ := intFrac_le_round t num den hden
  obtain ⟨hm, hv2, hh, hd⟩ := takens_le df t
  refine ⟨?_, ?_, ?_, ?_, ?_, ?_⟩
  · unfold createStrategicSample
    by_cases h : sampleList df t ≠ []
    · rw [if_pos h]
      exact (dedupBbl_spec _ []).1
    · rw [if_neg h]
      show ((sampleWR (lcg 42) (min t df.length) df).map SRec.bbl).Nodup
      rw [sampleWR_map]
      exact sampleWR_nodup _ _ _ hkeys
  · unfold createStrategicSample
    by_cases h : sampleList df t ≠ []
    · rw [if_pos h]
      show (dedupBbl (sampleList df t).flatten []).length ≤ t
      have h1 : (dedupBbl (sampleList df t).flatten []).length ≤
          (sampleList df t).flatten.length := dedupBbl_length_le _ _
      have h2 : (sampleList df t).flatten.length = totalLen (sampleList df t) := by
        rw [List.length_flatten]; rfl
      have h3 : totalLen (sampleList df t) =
          totalLen (sampleList1234 df t) + totalLen (residualParts df t) := by
        rw [sampleList, totalLen_append]
      have h4 := sampleList1234_total df t
      have h5 := residualParts_total_le df t
      have h6 := remaining4_eq df t
      have h7 := remaining4_nonneg df t
      omega
    · rw [if_neg h]
      show (sampleWR (lcg 42) (min t df.length) df).length ≤ t
      rw [sampleWR_length]
      omega
  · have := mnSample_length df t
    exact this ▸ hquota _ 3 10 hm (by norm_num)
  · have hle : (vacantSample df t).length ≤ intFrac t 15 100 := by
      rw [vacantSample_length]
      calc vacantK df t ≤ vacantCap df t := Nat.min_le_left _ _
        _ ≤ _ := Nat.min_le_right _ _
    exact hquota _ 15 100 hle (by norm_num)
  · have hle : (hvSample df t).length ≤ intFrac t 1 10 := by
      rw [hvSample_length]
      calc hvK df t ≤ hvCap df t := Nat.min_le_left _ _
        _ ≤ _ := Nat.min_le_right _ _
    exact hquota _ 1 10 hle (by norm_num)
  · have hle : (devSample df t).length ≤ intFrac t 1 10 := by
      rw [devSample_length]
      calc devK df t ≤ devCap df t := Nat.min_le_left _ _
        _ ≤ _ := Nat.min_le_right _ _
    exact hquota _ 1 10 hle (by norm_num)

/-- C7, counterexample: on an input whose rows repeat a key and match no
quota, every quota stage is skipped, so the fallback `df.sample(...)` runs
with no bbl deduplication and the returned sample carries the key 1 twice —
falsifying "the stratified sample contains no two records with the same bbl
key" for arbitrary inputs. -/
theorem strategic_sample_dup_keys_in_fallback :
    ((createStrategicSample 0 dfDupKeys 2).1.map SRec.bbl) = [1, 1] ∧
    ¬ ((createStrategicSample 0 dfDupKeys 2).1.map SRec.bbl).Nodup :=
  ⟨by decide, by decide⟩

/-- C7, witness: the amended theorem applied to a one-row Manhattan
dataframe with target size 10. -/
theorem strategic_sample_bounds_witness :
    ((createStrategicSample 0 dfOneMN 10).1.map SRec.bbl).Nodup ∧
    (createStrategicSample 0 dfOneMN 10).1.length ≤ 10 ∧
    ((mnSample dfOneMN 10).length : ℤ) ≤ round (((3 : ℚ) / 10) * ((10 : ℕ) : ℚ)) ∧
    ((vacantSample dfOneMN 10).length : ℤ) ≤ round (((15 : ℚ) / 100) * ((10 : ℕ) : ℚ)) ∧
    ((hvSample dfOneMN 10).length : ℤ) ≤ round (((1 : ℚ) / 10) * ((10 : ℕ) : ℚ)) ∧
    ((devSample dfOneMN 10).length : ℤ) ≤ round (((1 : ℚ) / 10) * ((10 : ℕ) : ℚ)) :=
  strategic_sample_bounds 0 dfOneMN 10 (by decide)

end LotFinderPro
